import Mathlib

/-!
# Verification of SimpleDraggable (src/SImpleDraggable.js)

Shallow embedding of the `SimpleDraggable` class.  Pixel quantities (all JS
numbers in the source) are modelled as `Int`; DOM strings as `String`;
`localStorage` as an association list; JS `undefined` instance fields that
can be observed before their first assignment as `Option`.

Modelling conventions, per source function:
* `getComputedStyle`, `getBoundingClientRect`, `getViewport` and
  `getDocDimensions` are host queries: their results (`Styles`, `Rect`,
  `Dims`) are inputs to each operation that performs the query.
* `this.thresholdX/Y` and `this.borderH/V` are `Option Int`: `none` models
  the JS `undefined` of an instance constructed with `enabled = false`
  (the constructor only runs `_setProperties` when enabled).  Arithmetic on
  `undefined` yields `NaN`, and `NaN < 0` is false; `jsThresholdCorrection`
  reproduces exactly that branch behaviour for `none`.
* The remaining numeric fields (`pos_1..pos_4`, `translateX/Y`,
  `offsetLeft/Top`) are also `undefined` before `_setProperties` runs, but
  every handler that reads them is only reachable (listener attached) after
  some write; they are modelled as `Int` initialised to `0`.
* `JSON.parse` is modelled at two levels.  The sync path (`_updatePos`)
  uses the general model `jsonParseJs`: a recursive-descent JSON parser
  into a `Json` value (numbers restricted to the model's integers — JSON
  fraction/exponent parts, and string escape sequences, lie outside the
  model's value domain), followed by the observation `jsObserve` recording
  exactly what the code inspects: truthiness and the numeric `x`/`y`
  members.  `none` models a thrown `SyntaxError`.  A truthy value without
  a numeric member yields `undefined` there, and the subsequent arithmetic
  propagates `NaN`; `JNum` (`none` = the `undefined`/`NaN` family, which
  every modelled observation treats alike: arithmetic gives `NaN`,
  comparisons are false, and stringification only happens after a `+=`
  has turned `undefined` into `NaN`) carries that through `_getPos`.
  `_mousedown` reads back `dataset.translate`, a string this code itself
  writes: on that domain (numeric templates, or the `NaN` template, which
  `JSON.parse` rejects) the restricted parser `jsonParseTranslate` agrees
  with `JSON.parse`, and the session fields stay numeric.
* Event listeners are modelled as `Bool` attachment flags; `deliver` only
  invokes a handler when its flag is set, mirroring DOM dispatch, and
  clears the `mouseup` flag after firing (the `once: true` registration).
-/

namespace SimpleDraggable

/-- Result of `getBoundingClientRect` on the movable element. -/
structure Rect where
  left : Int
  top : Int
  width : Int
  height : Int
deriving DecidableEq, Repr, Inhabited

/-- Result of `getViewport` / `getDocDimensions`: `\x7by, x\x7d` in the source. -/
structure Dims where
  x : Int
  y : Int
deriving DecidableEq, Repr, Inhabited

/-- Result of `getComputedStyle(this.element)`: the `position` string and the
four border widths, already passed through `parseFloat`. -/
structure Styles where
  position : String
  borderLeft : Int
  borderRight : Int
  borderTop : Int
  borderBottom : Int
deriving DecidableEq, Repr, Inhabited

/-- One synchronous snapshot of every host query an operation may perform. -/
structure World where
  styles : Styles
  rect : Rect
  viewport : Dims
  docDims : Dims
deriving DecidableEq, Repr, Inhabited

/-- The observable annotations of the movable element: `dataset.translate`,
`dataset.draggable` and `style.translate` (each `none` when absent). -/
structure Elem where
  datasetTranslate : Option String
  datasetDraggable : Option String
  styleTranslate : Option String
deriving DecidableEq, Repr, Inhabited

/-- The fields of a `MouseEvent` the source reads, with `target !==
this.dragElement` collapsed to a boolean. -/
structure MouseEv where
  clientX : Int
  clientY : Int
  button : Nat
  targetIsDragElement : Bool
deriving DecidableEq, Repr, Inhabited

/-- `localStorage`, as an association list from keys to stored strings. -/
abbrev Store := List (String × String)

/-- `localStorage.getItem`. -/
def storeGet (st : Store) (k : String) : Option String :=
  match st.find? (fun p => p.1 == k) with
  | some p => some p.2
  | none => none

/-- `localStorage.setItem`. -/
def storeSet (st : Store) (k v : String) : Store :=
  (k, v) :: st.filter (fun p => p.1 != k)

/-- `localStorage.removeItem`. -/
def storeRemove (st : Store) (k : String) : Store :=
  st.filter (fun p => p.1 != k)

/-! ## Serialization of the translate payload

The source externalizes the offset with template strings
(`_stopDrag`, `_updatePos`, `JSON.stringify` in `_stopDrag`) and reads it
back with `JSON.parse` (`_mousedown`, `_updatePos`).  JS number-to-string
on the model's `Int` values is decimal digit rendering with a leading
minus sign. -/

/-- The decimal digit character for `d < 10`. -/
def digitToChar (d : Nat) : Char := Char.ofNat (48 + d)

/-- Numeric value of a decimal digit character. -/
def charToDigit (c : Char) : Nat := c.toNat - 48

/-- Is `c` one of the characters `0`..`9`. -/
def isDigitChar (c : Char) : Bool := 48 ≤ c.toNat && c.toNat ≤ 57

/-- Most-significant-first decimal digits, with explicit recursion fuel so
that the definition is structurally recursive (any `fuel` with
`n < 10 ^ fuel` gives the digits of `n`). -/
def natToDigitsAux : Nat → Nat → List Char
  | 0, _ => []
  | fuel + 1, n =>
    if n < 10 then [digitToChar n]
    else natToDigitsAux fuel (n / 10) ++ [digitToChar (n % 10)]

/-- Most-significant-first decimal digits of a natural number (JS
`ToString` restricted to the model's integers). -/
def natToDigits (n : Nat) : List Char := natToDigitsAux (n + 1) n

/-- JS `ToString` of an integer, as characters. -/
def intToDecChars (i : Int) : List Char :=
  if i < 0 then '-' :: natToDigits i.natAbs else natToDigits i.toNat

/-- JS `ToString` of an integer. -/
def intToDecString (i : Int) : String := String.mk (intToDecChars i)

/-- The characters of the template written to `dataset.translate` by
`_stopDrag` and `_updatePos`: `\x7b"x":X, "y":Y\x7d` (with the space). -/
def serializeDatasetChars (x y : Int) : List Char :=
  Char.ofNat 123 :: '\"' :: 'x' :: '\"' :: ':' ::
    (intToDecChars x ++ (',' :: ' ' :: '\"' :: 'y' :: '\"' :: ':' ::
      (intToDecChars y ++ [Char.ofNat 125])))

/-- The string written to `dataset.translate` by `_stopDrag` and
`_updatePos`. -/
def serializeDataset (x y : Int) : String := String.mk (serializeDatasetChars x y)

/-- `JSON.stringify(\x7bx, y\x7d)` as written to `localStorage` by `_stopDrag`
(no space after the comma). -/
def jsonStringifyPair (x y : Int) : String :=
  String.mk (Char.ofNat 123 :: '\"' :: 'x' :: '\"' :: ':' ::
    (intToDecChars x ++ (',' :: '\"' :: 'y' :: '\"' :: ':' ::
      (intToDecChars y ++ [Char.ofNat 125]))))

/-- The literal `'\x7b"x":0,"y":0\x7d'` written by `_setProperties` and `stop`. -/
def zeroTranslateJson : String := "\x7b\"x\":0,\"y\":0\x7d"

/-- The value written to `element.style.translate`: `Xpx Ypx`. -/
def styleTranslateString (x y : Int) : String :=
  intToDecString x ++ "px " ++ intToDecString y ++ "px"

/-- A JS number as observed on the sync path: `some n` a (model) number,
`none` the `undefined`/`NaN` family.  The two are conflated because every
modelled observation treats them identically: arithmetic yields `NaN`,
`NaN < b` is false, and the only stringifications happen after `+=` has
already turned `undefined` into `NaN`. -/
abbrev JNum := Option Int

/-- JS `+` on possibly-`NaN` numbers. -/
def jnAdd : JNum → JNum → JNum
  | some a, some b => some (a + b)
  | _, _ => none

/-- JS `-` on possibly-`NaN` numbers. -/
def jnSub : JNum → JNum → JNum
  | some a, some b => some (a - b)
  | _, _ => none

/-- JS `ToString` of a possibly-`NaN` number, as characters. -/
def jnChars : JNum → List Char
  | some n => intToDecChars n
  | none => ['N', 'a', 'N']

/-- JS `ToString` of a possibly-`NaN` number. -/
def jnToString : JNum → String
  | some n => intToDecString n
  | none => "NaN"

/-- The `_stopDrag`/`_updatePos` dataset template over possibly-`NaN`
values (`\x7b"x":NaN, "y":NaN\x7d` when both are `NaN`); on numeric pairs it
is exactly `serializeDatasetChars`. -/
def serializeDatasetJsChars (x y : JNum) : List Char :=
  Char.ofNat 123 :: '\"' :: 'x' :: '\"' :: ':' ::
    (jnChars x ++ (',' :: ' ' :: '\"' :: 'y' :: '\"' :: ':' ::
      (jnChars y ++ [Char.ofNat 125])))

/-- The dataset template string over possibly-`NaN` values. -/
def serializeDatasetJs (x y : JNum) : String :=
  String.mk (serializeDatasetJsChars x y)

/-- The `style.translate` template over possibly-`NaN` values
(`NaNpx NaNpx` when both are `NaN`). -/
def styleTranslateJs (x y : JNum) : String :=
  jnToString x ++ "px " ++ jnToString y ++ "px"

/-- JSON insignificant whitespace. -/
def isJsonWs (c : Char) : Bool := c == ' ' || c == '\t' || c == '\n' || c == '\r'

/-- Drop leading JSON whitespace. -/
def skipWs (cs : List Char) : List Char := cs.dropWhile isJsonWs

/-- Consume one expected character. -/
def expectChar (c : Char) : List Char → Option (List Char)
  | [] => none
  | x :: xs => if x == c then some xs else none

/-- Consume an expected sequence of characters. -/
def expectChars : List Char → List Char → Option (List Char)
  | [], cs => some cs
  | e :: es, cs => (expectChar e cs).bind (expectChars es)

/-- Consume a nonempty run of decimal digits and return its value. -/
def parseNatDigits (cs : List Char) : Option (Nat × List Char) :=
  if (cs.takeWhile isDigitChar).isEmpty then none
  else some ((cs.takeWhile isDigitChar).foldl (fun a c => a * 10 + charToDigit c) 0,
    cs.dropWhile isDigitChar)

/-- Consume an optionally-signed decimal integer. -/
def parseIntChars (cs : List Char) : Option (Int × List Char) :=
  match cs with
  | [] => none
  | c :: rest =>
    if c == '-' then (parseNatDigits rest).map (fun p => (-(p.1 : Int), p.2))
    else (parseNatDigits cs).map (fun p => ((p.1 : Int), p.2))

/-- `JSON.parse` restricted to the translate payload shape
`\x7b"x":<int>, "y":<int>\x7d` with JSON whitespace tolerance; `none` models a
thrown `SyntaxError` (and folds in non-object JSON values, see the header
comment). -/
def parseTranslateChars (cs0 : List Char) : Option (Int × Int) :=
  (expectChar (Char.ofNat 123) (skipWs cs0)).bind fun cs1 =>
  (expectChars ['\"', 'x', '\"'] (skipWs cs1)).bind fun cs2 =>
  (expectChar ':' (skipWs cs2)).bind fun cs3 =>
  (parseIntChars (skipWs cs3)).bind fun px =>
  (expectChar ',' (skipWs px.2)).bind fun cs4 =>
  (expectChars ['\"', 'y', '\"'] (skipWs cs4)).bind fun cs5 =>
  (expectChar ':' (skipWs cs5)).bind fun cs6 =>
  (parseIntChars (skipWs cs6)).bind fun py =>
  (expectChar (Char.ofNat 125) (skipWs py.2)).bind fun cs7 =>
  if (skipWs cs7).isEmpty then some (px.1, py.1) else none

/-- `JSON.parse` of a stored translate string. -/
def jsonParseTranslate (s : String) : Option (Int × Int) := parseTranslateChars s.data

/-! ## The general `JSON.parse` model for the sync path

`_updatePos` feeds arbitrary external strings (from `localStorage` or a
storage event) to `JSON.parse`, and a successful parse of the wrong shape
is *not* an error there: the code then reads `data.x`/`data.y` (possibly
`undefined`) and tests truthiness.  The model parses into a `Json` value
and then observes exactly those facts. -/

/-- A JSON value.  Numbers carry the model's integers; fraction/exponent
parts and string escape sequences are outside the model's value domain. -/
inductive Json where
  | null
  | bool (b : Bool)
  | num (n : Int)
  | str (s : String)
  | arr (elems : List Json)
  | obj (members : List (String × Json))

instance : Inhabited Json := ⟨Json.null⟩

/-- Consume a JSON string literal (escape sequences are outside the
model's value domain). -/
def parseJsonString : List Char → Option (String × List Char)
  | [] => none
  | c :: rest =>
    if c == '\"' then
      match rest.dropWhile (fun d => d != '\"') with
      | _ :: rest2 => some (String.mk (rest.takeWhile (fun d => d != '\"')), rest2)
      | [] => none
    else none

/-- JSON's integer grammar forbids a leading zero on a multi-digit run. -/
def jsonDigitsOk : List Char → Bool
  | [] => false
  | [_] => true
  | c :: _ :: _ => c != '0'

/-- Consume a JSON integer literal (`-? (0 | [1-9][0-9]*)`). -/
def jsonIntChars (cs : List Char) : Option (Int × List Char) :=
  match cs with
  | [] => none
  | c :: rest =>
    if c == '-' then
      match parseNatDigits rest with
      | some (n, r) =>
        if jsonDigitsOk (rest.takeWhile isDigitChar) then some (-(n : Int), r)
        else none
      | none => none
    else
      match parseNatDigits cs with
      | some (n, r) =>
        if jsonDigitsOk (cs.takeWhile isDigitChar) then some ((n : Int), r)
        else none
      | none => none

/-- Parser mode: a single value, or the member/element list of an object
or array already opened (with the members read so far). -/
inductive JMode where
  | val
  | members (acc : List (String × Json))
  | elems (acc : List Json)

/-- Recursive-descent JSON parser.  The fuel only bounds the recursion
depth (it is structural so that concrete parses evaluate in the kernel);
`jsonParseVal` supplies more fuel than any input can consume. -/
def parseJsonAux : Nat → JMode → List Char → Option (Json × List Char)
  | 0, _, _ => none
  | fuel + 1, .val, cs0 =>
    match skipWs cs0 with
    | [] => none
    | c :: rest =>
      if c == 'n' then (expectChars ['u', 'l', 'l'] rest).map (fun r => (Json.null, r))
      else if c == 't' then
        (expectChars ['r', 'u', 'e'] rest).map (fun r => (Json.bool true, r))
      else if c == 'f' then
        (expectChars ['a', 'l', 's', 'e'] rest).map (fun r => (Json.bool false, r))
      else if c == '\"' then
        (parseJsonString (c :: rest)).map (fun p => (Json.str p.1, p.2))
      else if c == Char.ofNat 123 then
        match skipWs rest with
        | c2 :: rest2 =>
          if c2 == Char.ofNat 125 then some (Json.obj [], rest2)
          else parseJsonAux fuel (.members []) (c2 :: rest2)
        | [] => none
      else if c == '[' then
        match skipWs rest with
        | c2 :: rest2 =>
          if c2 == ']' then some (Json.arr [], rest2)
          else parseJsonAux fuel (.elems []) (c2 :: rest2)
        | [] => none
      else (jsonIntChars (c :: rest)).map (fun p => (Json.num p.1, p.2))
  | fuel + 1, .members acc, cs0 =>
    match parseJsonString (skipWs cs0) with
    | none => none
    | some (k, cs1) =>
      match expectChar ':' (skipWs cs1) with
      | none => none
      | some cs2 =>
        match parseJsonAux fuel .val cs2 with
        | none => none
        | some (v, cs3) =>
          match skipWs cs3 with
          | c :: cs4 =>
            if c == ',' then parseJsonAux fuel (.members (acc ++ [(k, v)])) cs4
            else if c == Char.ofNat 125 then some (Json.obj (acc ++ [(k, v)]), cs4)
            else none
          | [] => none
  | fuel + 1, .elems acc, cs0 =>
    match parseJsonAux fuel .val cs0 with
    | none => none
    | some (v, cs1) =>
      match skipWs cs1 with
      | c :: cs2 =>
        if c == ',' then parseJsonAux fuel (.elems (acc ++ [v])) cs2
        else if c == ']' then some (Json.arr (acc ++ [v]), cs2)
        else none
      | [] => none

/-- `JSON.parse` into a JSON value; `none` models the thrown
`SyntaxError`.  The whole input (up to trailing whitespace) must be one
value. -/
def jsonParseVal (s : String) : Option Json :=
  match parseJsonAux (s.data.length + 1) .val s.data with
  | some (j, rest) => if (skipWs rest).isEmpty then some j else none
  | none => none

/-- JS truthiness of a parsed JSON value (`null`, `false`, `0`, `""` are
falsy; every object and array is truthy). -/
def Json.isFalsy : Json → Bool
  | .null => true
  | .bool b => !b
  | .num n => n == 0
  | .str s => s == ""
  | .arr _ => false
  | .obj _ => false

/-- The numeric member `k` of a parsed value: `some n` when it is an
object whose (last, as in `JSON.parse`) member `k` is a number, `none`
otherwise — the `undefined` the code then feeds into its arithmetic.
(A non-numeric member value is outside the model's value domain.) -/
def Json.memberNum : Json → String → Option Int
  | .obj ms, k =>
    match ms.reverse.find? (fun p => p.1 == k) with
    | some (_, .num n) => some n
    | _ => none
  | _, _ => none

/-- What `_updatePos`/`_getPos` observe about the parsed payload: its
truthiness, and (when truthy) its `x`/`y` numeric members. -/
inductive JsParsed where
  | falsy
  | truthy (x y : Option Int)
deriving DecidableEq, Repr, Inhabited

/-- Observe a parsed JSON value. -/
def jsObserve (j : Json) : JsParsed :=
  if j.isFalsy then .falsy else .truthy (j.memberNum "x") (j.memberNum "y")

/-- `JSON.parse` as seen by the sync path. -/
def jsonParseJs (s : String) : Option JsParsed := (jsonParseVal s).map jsObserve

/-! ## Instance state and operations -/

/-- The mutable state of one `SimpleDraggable` instance, together with the
element annotations, `localStorage` and the listener attachment flags. -/
structure State where
  id : String
  store : Bool
  enabled : Bool
  position : Option String
  borderH : Option Int
  borderV : Option Int
  thresholdX : Option Int
  thresholdY : Option Int
  pos1 : Int
  pos2 : Int
  pos3 : Int
  pos4 : Int
  translateX : Int
  translateY : Int
  offsetLeft : Int
  offsetTop : Int
  elem : Elem
  localStorage : Store
  mousedownAttached : Bool
  storageAttached : Bool
  mousemoveAttached : Bool
  mouseupAttached : Bool
deriving DecidableEq, Repr, Inhabited

/-- One axis of `_getThresholds`: the additive correction for a proposed
coordinate against threshold `t`. -/
def clampCorrection (t coord : Int) : Int :=
  if t - coord < 0 then t - coord
  else if coord < 0 then |coord|
  else 0

/-- One axis of `_getThresholds` when the threshold may be the JS
`undefined` (`none`): `undefined - coord` is `NaN` and `NaN < 0` is false,
so only the `coord < 0` branch can fire. -/
def jsThresholdCorrection (t : Option Int) (coord : Int) : Int :=
  match t with
  | some tv => clampCorrection tv coord
  | none => if coord < 0 then |coord| else 0

/-- `_getThresholds(top, left)`: per-axis additive corrections `\x7bx, y\x7d`. -/
def getThresholds (s : State) (top left : Int) : Int × Int :=
  (jsThresholdCorrection s.thresholdX left, jsThresholdCorrection s.thresholdY top)

/-- One axis of `_getThresholds` when the coordinate itself may be `NaN`
(sync path with a wrong-shape payload): `t - NaN` is `NaN`, `NaN < 0` is
false in both branches, so the correction is `0`. -/
def jsThresholdCorrectionJs (t : Option Int) (coord : JNum) : Int :=
  match coord with
  | some c => jsThresholdCorrection t c
  | none => 0

/-- `_getThresholds` over possibly-`NaN` coordinates; on numbers it is
exactly `getThresholds` (see `getThresholdsJs_extends`). -/
def getThresholdsJs (s : State) (top left : JNum) : Int × Int :=
  (jsThresholdCorrectionJs s.thresholdX left, jsThresholdCorrectionJs s.thresholdY top)

/-- `_setProperties()`: removes the stored entry when persistence is off,
reads the computed style, rejects (`none`, modelling the throw) a position
that is neither `fixed` nor `absolute` while enabled, measures the element
and container, derives borders and thresholds, and resets the offset
bookkeeping and the `dataset.translate` annotation. -/
def setProperties (s : State) (w : World) : Option State :=
  let ls := if s.store then s.localStorage else storeRemove s.localStorage s.id
  let position := w.styles.position
  if s.enabled ∧ position ≠ "fixed" ∧ position ≠ "absolute" then none
  else
    let rect := w.rect
    let dims := if position = "fixed" then w.viewport else w.docDims
    let bH := w.styles.borderLeft + w.styles.borderRight
    let bV := w.styles.borderTop + w.styles.borderBottom
    some { s with
      localStorage := ls,
      position := some position,
      borderH := some bH,
      borderV := some bV,
      thresholdX := some (dims.x - (rect.width + bH)),
      thresholdY := some (dims.y - (rect.height + bV)),
      elem := { s.elem with datasetTranslate := some zeroTranslateJson },
      pos1 := 0, pos2 := 0, pos3 := 0, pos4 := 0,
      translateX := 0, translateY := 0,
      offsetLeft := rect.left,
      offsetTop := rect.top }

/-- `_getPos(data)` on a numeric pair payload (the case of every payload
this library itself writes; `none` = a falsy argument): substitute `(0,0)`
for a falsy argument, re-measure the element (`rect` input), recompute the
pre-drag offset, and add the clamp correction to the proposed offset.
Returns the corrected pair and the state with the updated
`offsetLeft`/`offsetTop`.  `getPosJs` below is the general form over the
JS value domain and `getPosJs_extends_getPos` proves this is its
restriction to numeric pairs. -/
def getPos (s : State) (data : Option (Int × Int)) (rect : Rect) :
    (Int × Int) × State :=
  let pos := match data with
    | none => ((0 : Int), (0 : Int))
    | some d => d
  let offsetLeft := rect.left - pos.1
  let offsetTop := rect.top - pos.2
  let s1 := { s with offsetLeft := offsetLeft, offsetTop := offsetTop }
  let thr := getThresholds s1 (pos.2 + offsetTop) (pos.1 + offsetLeft)
  ((pos.1 + thr.1, pos.2 + thr.2), s1)

/-- `_getPos(data)` over the JS value domain: a falsy `data` becomes
`(0,0)`; a truthy one contributes `data.x`/`data.y`, which are `undefined`
(`none`) for a wrong-shape payload, so the offset subtraction and the
final `+=` propagate `NaN`.  The source also stores the (then `NaN`)
offsets back into `this.offsetLeft`/`this.offsetTop`; those fields are
dead until the next assignment (`_mousedown` and `_getPos` itself assign
before every read), so the `Int`-typed state fields record the numeric
case and collapse a stored `NaN` to `0` (`.getD 0`) — no modelled flow
observes the difference. -/
def getPosJs (s : State) (data : JsParsed) (rect : Rect) :
    (JNum × JNum) × State :=
  let pos : JNum × JNum :=
    match data with
    | .falsy => (some 0, some 0)
    | .truthy x y => (x, y)
  let offsetLeft := jnSub (some rect.left) pos.1
  let offsetTop := jnSub (some rect.top) pos.2
  let s1 := { s with offsetLeft := offsetLeft.getD 0, offsetTop := offsetTop.getD 0 }
  let thr := getThresholdsJs s1 (jnAdd pos.2 offsetTop) (jnAdd pos.1 offsetLeft)
  ((jnAdd pos.1 (some thr.1), jnAdd pos.2 (some thr.2)), s1)

/-- `_updatePos(storedData)`: a falsy payload (absent or empty string) is
a no-op; otherwise `JSON.parse` (the `catch` substitutes the object
`\x7bx: 0, y: 0\x7d`), reconcile through `_getPos`, write the annotation, and
write the visual transform through the `data ? ... : ""` ternary — the
inline style is cleared when the parsed value itself was falsy (for
example the payload `"null"`). -/
def updatePos (s : State) (storedData : Option String) (rect : Rect) : State :=
  match storedData with
  | none => s
  | some str =>
    if str = "" then s
    else
      let data : JsParsed := (jsonParseJs str).getD (.truthy (some 0) (some 0))
      let r := getPosJs s data rect
      { r.2 with elem := { r.2.elem with
          datasetTranslate := some (serializeDatasetJs r.1.1 r.1.2),
          styleTranslate := some (match data with
            | .falsy => ""
            | .truthy _ _ => styleTranslateJs r.1.1 r.1.2) } }

/-- `_restorePos()`: reapply the offset stored under this instance's id. -/
def restorePos (s : State) (w : World) : State :=
  updatePos s (storeGet s.localStorage s.id) w.rect

/-- `_mousedown(e)`: ignore when the element is flagged non-draggable, the
press is not on the handle, or the button is not primary; otherwise start a
session: capture the pointer, read back the translate annotation
(defaulting to `(0,0)`), compute the pre-drag offset, recompute container
dimensions and thresholds, and attach the move listener and the one-shot
release listener. -/
def mousedownHandler (s : State) (e : MouseEv) (rect : Rect) (vp docDims : Dims) :
    State :=
  if s.elem.datasetDraggable = some "false" then s
  else if e.targetIsDragElement = false then s
  else if e.button ≠ 0 then s
  else
    let translate : Int × Int :=
      match s.elem.datasetTranslate with
      | none => (0, 0)
      | some str => if str = "" then (0, 0) else (jsonParseTranslate str).getD (0, 0)
    let dims := if s.position = some "fixed" then vp else docDims
    { s with
      pos3 := e.clientX,
      pos4 := e.clientY,
      translateX := translate.1,
      translateY := translate.2,
      offsetLeft := rect.left - translate.1,
      offsetTop := rect.top - translate.2,
      thresholdX := s.borderH.map (fun b => dims.x - (rect.width + b)),
      thresholdY := s.borderV.map (fun b => dims.y - (rect.height + b)),
      mousemoveAttached := true,
      mouseupAttached := true }

/-- `_drag(e)`: accumulate the pointer delta into the running translation,
ask `_getThresholds` for the correction of the would-be absolute top-left,
add it, and render the corrected translation. -/
def dragHandler (s : State) (e : MouseEv) : State :=
  let pos1 := s.pos3 - e.clientX
  let pos2 := s.pos4 - e.clientY
  let ty := s.translateY - pos2
  let tx := s.translateX - pos1
  let thr := getThresholds s (ty + s.offsetTop) (tx + s.offsetLeft)
  let ty2 := ty + thr.2
  let tx2 := tx + thr.1
  { s with
    pos1 := pos1, pos2 := pos2,
    pos3 := e.clientX, pos4 := e.clientY,
    translateX := tx2, translateY := ty2,
    elem := { s.elem with styleTranslate := some (styleTranslateString tx2 ty2) } }

/-- `_stopDrag(e)`: detach the move listener, externalize the final offset
into `dataset.translate`, and persist it when `store` is on. -/
def stopDragHandler (s : State) : State :=
  { s with
    mousemoveAttached := false,
    elem := { s.elem with
      datasetTranslate := some (serializeDataset s.translateX s.translateY) },
    localStorage :=
      if s.store then storeSet s.localStorage s.id
        (jsonStringifyPair s.translateX s.translateY)
      else s.localStorage }

/-- `_onStorage(e)`: ignore when flagged non-draggable; react only to this
instance's key. -/
def onStorage (s : State) (key : String) (newValue : Option String) (rect : Rect) :
    State :=
  if s.elem.datasetDraggable = some "false" then s
  else if key = s.id then updatePos s newValue rect
  else s

/-- `removeListeners()`: detach every listener this instance added. -/
def removeListeners (s : State) : State :=
  { s with
    mousedownAttached := false,
    storageAttached := false,
    mousemoveAttached := false,
    mouseupAttached := false }

/-- `stop()`: early return when already disabled; otherwise detach
listeners, reset the `dataset.translate` annotation to zero, and clear the
enabled flag.  (It does not touch `style.translate` or `localStorage`.) -/
def stop (s : State) : State :=
  if s.enabled = false then s
  else
    let s1 := removeListeners s
    { s1 with
      elem := { s1.elem with datasetTranslate := some zeroTranslateJson },
      enabled := false }

/-- `start()`: early return when already enabled; otherwise re-run
`_setProperties` (note: `this.enabled` is still false there, so the
position check is skipped and no throw can occur), restore the persisted
offset, reattach the mousedown and storage listeners, and set the flag. -/
def start (s : State) (w : World) : Option State :=
  if s.enabled = true then some s
  else
    match setProperties s w with
    | none => none
    | some s1 =>
      let s2 := restorePos s1 w
      some { s2 with
        mousedownAttached := true,
        storageAttached := true,
        enabled := true }

/-- `new SimpleDraggable(id, dragElement, element, store, enabled)`:
validates the id (the `HTMLElement` checks are not representable), and when
enabled runs `_setProperties`, `_restorePos` and attaches the mousedown
listener; the storage listener is attached unconditionally. -/
def init (id : String) (store enabled : Bool) (elem : Elem) (ls : Store)
    (w : World) : Option State :=
  if id = "" then none
  else
    let s0 : State := {
      id := id, store := store, enabled := enabled,
      position := none, borderH := none, borderV := none,
      thresholdX := none, thresholdY := none,
      pos1 := 0, pos2 := 0, pos3 := 0, pos4 := 0,
      translateX := 0, translateY := 0, offsetLeft := 0, offsetTop := 0,
      elem := elem, localStorage := ls,
      mousedownAttached := false, storageAttached := false,
      mousemoveAttached := false, mouseupAttached := false }
    if enabled then
      match setProperties s0 w with
      | none => none
      | some s1 =>
        let s2 := restorePos s1 w
        some { s2 with mousedownAttached := true, storageAttached := true }
    else
      some { s0 with storageAttached := true }

/-! ## Event delivery and the operation alphabet -/

/-- A DOM event that may reach this instance. -/
inductive Ev where
  | mousedown (e : MouseEv) (rect : Rect) (vp docDims : Dims)
  | mousemove (e : MouseEv)
  | mouseup
  | storage (key : String) (newValue : Option String) (rect : Rect)
deriving DecidableEq, Repr

/-- DOM dispatch: a handler runs only while its listener is attached; the
`mouseup` listener (registered with `once: true`) self-removes after
firing. -/
def deliver (s : State) (ev : Ev) : State :=
  match ev with
  | .mousedown e rect vp docDims =>
    if s.mousedownAttached then mousedownHandler s e rect vp docDims else s
  | .mousemove e =>
    if s.mousemoveAttached then dragHandler s e else s
  | .mouseup =>
    if s.mouseupAttached then { stopDragHandler s with mouseupAttached := false }
    else s
  | .storage key newValue rect =>
    if s.storageAttached then onStorage s key newValue rect else s

/-- Everything that can happen to a constructed instance: an event
delivery or a public method call. -/
inductive Op where
  | ev (ev : Ev)
  | stopOp
  | startOp (w : World)
  | removeListenersOp
deriving DecidableEq, Repr

/-- Run one operation.  A throw inside `start` (impossible, see `start`)
would leave the state unchanged. -/
def runOp (s : State) (o : Op) : State :=
  match o with
  | .ev ev => deliver s ev
  | .stopOp => stop s
  | .startOp w => (start s w).getD s
  | .removeListenersOp => removeListeners s

/-- The rendered visual transform denotes the zero offset: the inline
`style.translate` is absent, empty, or literally `0px 0px`. -/
def renderedZeroOffset (s : State) : Prop :=
  s.elem.styleTranslate = none ∨ s.elem.styleTranslate = some "" ∨
    s.elem.styleTranslate = some "0px 0px"

instance (s : State) : Decidable (renderedZeroOffset s) := by
  unfold renderedZeroOffset; infer_instance

/-! ## Concrete fixtures (used to instantiate theorems on concrete inputs) -/

/-- A world with a `fixed`-positioned, borderless 10×10 element at the
origin inside a 100×100 viewport. -/
def wFix : World := ⟨⟨"fixed", 0, 0, 0, 0⟩, ⟨0, 0, 10, 10⟩, ⟨100, 100⟩, ⟨100, 100⟩⟩

/-- A fresh element with no annotations. -/
def elemNone : Elem := ⟨none, none, none⟩

/-- An instance constructed enabled (with persistence) in `wFix`. -/
def sEnabled : State := (init "box" true true elemNone [] wFix).getD default

/-- An instance constructed with `enabled = false` (and `store = false`). -/
def sDisabled : State := (init "box" false false elemNone [] wFix).getD default

end SimpleDraggable

namespace SimpleDraggable

/-! ## Lemmas about the serialization format -/

theorem digitToChar_toNat (d : Nat) (h : d < 10) : (digitToChar d).toNat = 48 + d := by
  interval_cases d <;> decide

theorem isDigitChar_digitToChar (d : Nat) (h : d < 10) :
    isDigitChar (digitToChar d) = true := by
  unfold isDigitChar
  rw [digitToChar_toNat d h]
  simp only [Bool.and_eq_true, decide_eq_true_eq]
  omega

theorem charToDigit_digitToChar (d : Nat) (h : d < 10) :
    charToDigit (digitToChar d) = d := by
  unfold charToDigit
  rw [digitToChar_toNat d h]
  omega

theorem natToDigitsAux_all_digits :
    ∀ fuel n, ∀ c ∈ natToDigitsAux fuel n, isDigitChar c = true := by
  intro fuel
  induction fuel with
  | zero => intro n c hc; simp [natToDigitsAux] at hc
  | succ f ih =>
    intro n c hc
    rw [natToDigitsAux] at hc
    split at hc
    · next h10 =>
      simp only [List.mem_singleton] at hc
      subst hc
      exact isDigitChar_digitToChar n h10
    · next h10 =>
      rcases List.mem_append.mp hc with h1 | h2
      · exact ih (n / 10) c h1
      · simp only [List.mem_singleton] at h2
        subst h2
        exact isDigitChar_digitToChar _ (Nat.mod_lt _ (by omega))

theorem natToDigits_all_digits (n : Nat) :
    ∀ c ∈ natToDigits n, isDigitChar c = true :=
  natToDigitsAux_all_digits (n + 1) n

theorem natToDigitsAux_ne_nil (fuel n : Nat) (h : 0 < fuel) :
    natToDigitsAux fuel n ≠ [] := by
  cases fuel with
  | zero => omega
  | succ f =>
    rw [natToDigitsAux]
    split <;> simp

theorem natToDigits_ne_nil (n : Nat) : natToDigits n ≠ [] :=
  natToDigitsAux_ne_nil (n + 1) n (by omega)

theorem natToDigitsAux_foldl :
    ∀ fuel n acc, n < 10 ^ fuel →
      (natToDigitsAux fuel n).foldl (fun a c => a * 10 + charToDigit c) acc =
        acc * 10 ^ (natToDigitsAux fuel n).length + n := by
  intro fuel
  induction fuel with
  | zero =>
    intro n acc h
    have hn : n = 0 := by simpa using h
    subst hn
    simp [natToDigitsAux]
  | succ f ih =>
    intro n acc h
    rw [natToDigitsAux]
    split
    · next h10 =>
      simp only [List.foldl_cons, List.foldl_nil, List.length_singleton,
        charToDigit_digitToChar n h10, pow_one]
    · next h10 =>
      have hdiv : n / 10 < 10 ^ f := by
        rw [pow_succ] at h
        omega
      rw [List.foldl_append, ih (n / 10) acc hdiv]
      simp only [List.foldl_cons, List.foldl_nil,
        charToDigit_digitToChar (n % 10) (Nat.mod_lt _ (by omega)),
        List.length_append, List.length_singleton]
      rw [pow_succ, ← mul_assoc]
      have hdm := Nat.div_add_mod n 10
      generalize acc * 10 ^ (natToDigitsAux f (n / 10)).length = B
      omega

theorem natToDigits_foldl (n : Nat) :
    (natToDigits n).foldl (fun a c => a * 10 + charToDigit c) 0 = n := by
  have hlt : n < 10 ^ (n + 1) :=
    lt_of_lt_of_le (Nat.lt_pow_self (by omega) n)
      (Nat.pow_le_pow_right (by omega) (by omega))
  have := natToDigitsAux_foldl (n + 1) n 0 hlt
  simpa [natToDigits] using this

theorem takeWhile_append_of (p : Char → Bool) :
    ∀ (l1 l2 : List Char), (∀ c ∈ l1, p c = true) →
      (∀ c, l2.head? = some c → p c = false) →
      (l1 ++ l2).takeWhile p = l1 := by
  intro l1
  induction l1 with
  | nil =>
    intro l2 _ h2
    cases l2 with
    | nil => rfl
    | cons c cs => simp [List.takeWhile_cons, h2 c rfl]
  | cons a l ih =>
    intro l2 h1 h2
    have ha : p a = true := h1 a (by simp)
    simp [List.takeWhile_cons, ha, ih l2 (fun c hc => h1 c (by simp [hc])) h2]

theorem dropWhile_append_of (p : Char → Bool) :
    ∀ (l1 l2 : List Char), (∀ c ∈ l1, p c = true) →
      (∀ c, l2.head? = some c → p c = false) →
      (l1 ++ l2).dropWhile p = l2 := by
  intro l1
  induction l1 with
  | nil =>
    intro l2 _ h2
    cases l2 with
    | nil => rfl
    | cons c cs => simp [List.dropWhile_cons, h2 c rfl]
  | cons a l ih =>
    intro l2 h1 h2
    have ha : p a = true := h1 a (by simp)
    simp only [List.cons_append, List.dropWhile_cons, ha, if_true]
    exact ih l2 (fun c hc => h1 c (by simp [hc])) h2

theorem parseNatDigits_natToDigits (n : Nat) (rest : List Char)
    (hrest : ∀ c, rest.head? = some c → isDigitChar c = false) :
    parseNatDigits (natToDigits n ++ rest) = some (n, rest) := by
  have ht := takeWhile_append_of isDigitChar (natToDigits n) rest
    (natToDigits_all_digits n) hrest
  have hd := dropWhile_append_of isDigitChar (natToDigits n) rest
    (natToDigits_all_digits n) hrest
  have hne : (natToDigits n).isEmpty = false :=
    List.isEmpty_eq_false.mpr (natToDigits_ne_nil n)
  unfold parseNatDigits
  rw [ht, hd, hne]
  simp [natToDigits_foldl n]

theorem beq_dash_false_of_digit (c : Char) (h : isDigitChar c = true) :
    (c == '-') = false := by
  apply beq_eq_false_iff_ne.mpr
  intro hc
  subst hc
  exact absurd h (by decide)

theorem parseIntChars_intToDecChars (i : Int) (rest : List Char)
    (hrest : ∀ c, rest.head? = some c → isDigitChar c = false) :
    parseIntChars (intToDecChars i ++ rest) = some (i, rest) := by
  unfold intToDecChars
  split
  · next hneg =>
    simp only [List.cons_append, parseIntChars, beq_self_eq_true, if_true]
    rw [parseNatDigits_natToDigits i.natAbs rest hrest]
    simp only [Option.map_some']
    have habs : -(i.natAbs : Int) = i := by omega
    rw [habs]
  · next hneg =>
    rcases hcs : natToDigits i.toNat with _ | ⟨c, cs⟩
    · exact absurd hcs (natToDigits_ne_nil i.toNat)
    · have hdig : isDigitChar c = true := by
        apply natToDigits_all_digits i.toNat
        rw [hcs]; simp
      rw [List.cons_append]
      simp only [parseIntChars, beq_dash_false_of_digit c hdig,
        Bool.false_eq_true, if_false]
      rw [← List.cons_append, ← hcs,
        parseNatDigits_natToDigits i.toNat rest hrest]
      simp only [Option.map_some']
      have htn : ((i.toNat : Int)) = i := by omega
      rw [htn]

theorem not_ws_of_digit (c : Char) (h : isDigitChar c = true) :
    isJsonWs c = false := by
  have h48 : 48 ≤ c.toNat := by
    simp only [isDigitChar, Bool.and_eq_true, decide_eq_true_eq] at h
    exact h.1
  unfold isJsonWs
  have f1 : (c == ' ') = false := by
    apply beq_eq_false_iff_ne.mpr; intro hc; subst hc; exact absurd h48 (by decide)
  have f2 : (c == '\t') = false := by
    apply beq_eq_false_iff_ne.mpr; intro hc; subst hc; exact absurd h48 (by decide)
  have f3 : (c == '\n') = false := by
    apply beq_eq_false_iff_ne.mpr; intro hc; subst hc; exact absurd h48 (by decide)
  have f4 : (c == '\r') = false := by
    apply beq_eq_false_iff_ne.mpr; intro hc; subst hc; exact absurd h48 (by decide)
  simp [f1, f2, f3, f4]

theorem skipWs_cons_not_ws (c : Char) (l : List Char) (h : isJsonWs c = false) :
    skipWs (c :: l) = c :: l := by
  simp [skipWs, List.dropWhile_cons, h]

theorem skipWs_intToDecChars (i : Int) (rest : List Char) :
    skipWs (intToDecChars i ++ rest) = intToDecChars i ++ rest := by
  unfold intToDecChars
  split
  · simp only [List.cons_append]
    exact skipWs_cons_not_ws _ _ (by decide)
  · rcases hcs : natToDigits i.toNat with _ | ⟨c, cs⟩
    · exact absurd hcs (natToDigits_ne_nil i.toNat)
    · have hdig : isDigitChar c = true := by
        apply natToDigits_all_digits i.toNat
        rw [hcs]; simp
      rw [List.cons_append]
      exact skipWs_cons_not_ws _ _ (not_ws_of_digit c hdig)

theorem expectChar_cons_self (c : Char) (l : List Char) :
    expectChar c (c :: l) = some l := by
  simp [expectChar]

end SimpleDraggable

namespace SimpleDraggable

theorem skipWs_cons_ws (c : Char) (l : List Char) (h : isJsonWs c = true) :
    skipWs (c :: l) = skipWs l := by
  simp [skipWs, List.dropWhile_cons, h]

theorem headNotDigit_cons (a : Char) (l : List Char) (h : isDigitChar a = false) :
    ∀ c, (a :: l).head? = some c → isDigitChar c = false := by
  intro c hc
  rw [List.head?_cons] at hc
  cases hc
  exact h

theorem expectChars_three (a b c : Char) (rest : List Char) :
    expectChars [a, b, c] (a :: b :: c :: rest) = some rest := by
  simp [expectChars, expectChar_cons_self]

/-- C4: for every pair of (model) numbers `(x, y)`, serializing the
Translation Offset with the `_stopDrag` template written into
`dataset.translate` and parsing it back the way `_mousedown` does
(`JSON.parse`) reproduces the same numeric pair. -/
theorem claim4_serialize_parse_roundtrip (x y : Int) :
    jsonParseTranslate (serializeDataset x y) = some (x, y) := by
  show parseTranslateChars (serializeDatasetChars x y) = some (x, y)
  unfold serializeDatasetChars parseTranslateChars
  rw [skipWs_cons_not_ws _ _ (by decide), expectChar_cons_self]
  simp only [Option.some_bind]
  rw [skipWs_cons_not_ws _ _ (by decide), expectChars_three]
  simp only [Option.some_bind]
  rw [skipWs_cons_not_ws _ _ (by decide), expectChar_cons_self]
  simp only [Option.some_bind]
  rw [skipWs_intToDecChars,
    parseIntChars_intToDecChars x _ (headNotDigit_cons _ _ (by decide))]
  simp only [Option.some_bind]
  rw [skipWs_cons_not_ws _ _ (by decide), expectChar_cons_self]
  simp only [Option.some_bind]
  rw [skipWs_cons_ws _ _ (by decide), skipWs_cons_not_ws _ _ (by decide),
    expectChars_three]
  simp only [Option.some_bind]
  rw [skipWs_cons_not_ws _ _ (by decide), expectChar_cons_self]
  simp only [Option.some_bind]
  rw [skipWs_intToDecChars,
    parseIntChars_intToDecChars y _ (headNotDigit_cons _ _ (by decide))]
  simp only [Option.some_bind]
  rw [skipWs_cons_not_ws _ _ (by decide), expectChar_cons_self]
  simp only [Option.some_bind]
  rfl

/-- C2: `_setProperties` computes `thresholdX = containerSize.x −
(elementRect.width + borderH)` (and `thresholdY` analogously), the clamp
returns per axis `max − coord` when `max − coord < 0`, else `|coord|` when
`coord < 0`, else `0`, and `_drag` adds the correction to its running
translation rather than replacing it. -/
theorem claim2_threshold_formula_and_additive_clamp :
    (∀ (s : State) (w : World) (s' : State), setProperties s w = some s' →
      s'.thresholdX = some ((if w.styles.position = "fixed" then w.viewport
          else w.docDims).x -
        (w.rect.width + (w.styles.borderLeft + w.styles.borderRight))) ∧
      s'.thresholdY = some ((if w.styles.position = "fixed" then w.viewport
          else w.docDims).y -
        (w.rect.height + (w.styles.borderTop + w.styles.borderBottom)))) ∧
    (∀ t c : Int,
      (t - c < 0 → clampCorrection t c = t - c) ∧
      (¬ t - c < 0 → c < 0 → clampCorrection t c = |c|) ∧
      (¬ t - c < 0 → ¬ c < 0 → clampCorrection t c = 0)) ∧
    (∀ (s : State) (e : MouseEv),
      (dragHandler s e).translateX =
        s.translateX - (s.pos3 - e.clientX) +
          jsThresholdCorrection s.thresholdX
            (s.translateX - (s.pos3 - e.clientX) + s.offsetLeft) ∧
      (dragHandler s e).translateY =
        s.translateY - (s.pos4 - e.clientY) +
          jsThresholdCorrection s.thresholdY
            (s.translateY - (s.pos4 - e.clientY) + s.offsetTop)) := by
  refine ⟨?_, ?_, ?_⟩
  · intro s w s' h
    simp only [setProperties] at h
    split at h
    · exact absurd h (by simp)
    · rw [Option.some_inj] at h
      subst h
      exact ⟨rfl, rfl⟩
  · intro t c
    refine ⟨?_, ?_, ?_⟩
    · intro h1
      simp [clampCorrection, h1]
    · intro h1 h2
      simp [clampCorrection, h1, h2]
    · intro h1 h2
      simp [clampCorrection, h1, h2]
  · intro s e
    exact ⟨rfl, rfl⟩

/-- C2 witness: the threshold formula instantiated in the fixture world,
and the three clamp branches at concrete inputs. -/
theorem claim2_witness :
    ((setProperties sEnabled wFix).getD default).thresholdX =
      some ((if wFix.styles.position = "fixed" then wFix.viewport
          else wFix.docDims).x -
        (wFix.rect.width + (wFix.styles.borderLeft + wFix.styles.borderRight))) ∧
    clampCorrection 700 750 = 700 - 750 ∧
    clampCorrection 700 (-3) = |(-3 : Int)| ∧
    clampCorrection 700 2 = 0 := by
  obtain ⟨h1, h2, _⟩ := claim2_threshold_formula_and_additive_clamp
  exact ⟨(h1 sEnabled wFix _ rfl).1,
    (h2 700 750).1 (by decide),
    (h2 700 (-3)).2.1 (by decide) (by decide),
    (h2 700 2).2.2 (by decide) (by decide)⟩

/-- C3: reconciliation is idempotent: when the Bounding Context is
unchanged (the element's measured box sits at its natural position plus
the stored offset) and the resulting position is within `[0, thresholdX] ×
[0, thresholdY]`, the `_getPos` clamp path returns the stored offset
unchanged. -/
theorem claim3_reconcile_idempotent (s : State) (tx ty : Int) (rect : Rect)
    (d : Int × Int) (natX natY : Int)
    (hx : s.thresholdX = some tx) (hy : s.thresholdY = some ty)
    (hrl : rect.left = natX + d.1) (hrt : rect.top = natY + d.2)
    (h0l : 0 ≤ rect.left) (hlt : rect.left ≤ tx)
    (h0t : 0 ≤ rect.top) (htt : rect.top ≤ ty) :
    (getPos s (some d) rect).1 = d := by
  unfold getPos getThresholds
  simp only
  rw [hx, hy]
  simp only [jsThresholdCorrection]
  have e1 : d.1 + (rect.left - d.1) = rect.left := by ring
  have e2 : d.2 + (rect.top - d.2) = rect.top := by ring
  rw [e1, e2]
  have c1 : clampCorrection tx rect.left = 0 := by
    unfold clampCorrection
    split_ifs with h1 h2
    · omega
    · exact absurd h2 (by omega)
    · rfl
  have c2 : clampCorrection ty rect.top = 0 := by
    unfold clampCorrection
    split_ifs with h1 h2
    · omega
    · exact absurd h2 (by omega)
    · rfl
  rw [c1, c2]
  simp

/-- C3 witness: the fixture instance (thresholds `(90, 90)`), natural
position at the origin, stored offset `(5, 6)`, box measured at `(5, 6)`. -/
theorem claim3_witness :
    (getPos sEnabled (some (5, 6)) ⟨5, 6, 10, 10⟩).1 = (5, 6) :=
  claim3_reconcile_idempotent sEnabled 90 90 ⟨5, 6, 10, 10⟩ (5, 6) 0 0
    (by decide) (by decide) (by decide) (by decide)
    (by decide) (by decide) (by decide) (by decide)

/-- C8: a container smaller than the element (plus borders) yields a
negative threshold, and the clamp treats it as a valid target: every
corrected coordinate is pinned at or before the origin edge, landing
either on the (negative) threshold or on the origin itself. -/
theorem claim8_negative_threshold_pins (container elementW bH t p : Int)
    (ht : t = container - (elementW + bH))
    (hsmall : container < elementW + bH) :
    t < 0 ∧ p + clampCorrection t p ≤ 0 ∧
      (p + clampCorrection t p = t ∨ p + clampCorrection t p = 0) := by
  have htneg : t < 0 := by omega
  refine ⟨htneg, ?_⟩
  unfold clampCorrection
  split_ifs with h1 h2
  · exact ⟨by omega, Or.inl (by ring)⟩
  · rw [abs_of_neg h2]
    exact ⟨by omega, Or.inr (by ring)⟩
  · exact absurd htneg (by omega)

/-- C8 witness: a 50-wide container around a 60-wide element gives
threshold `-10`; a proposal at the origin is pinned to `-10`. -/
theorem claim8_witness :
    (-10 : Int) < 0 ∧ (0 : Int) + clampCorrection (-10) 0 ≤ 0 ∧
      ((0 : Int) + clampCorrection (-10) 0 = -10 ∨
        (0 : Int) + clampCorrection (-10) 0 = 0) :=
  claim8_negative_threshold_pins 50 60 0 (-10) 0 (by decide) (by decide)

/-- C10: `stop()` on an already-disabled instance and `start()` on an
already-enabled instance are exact no-ops: the early returns leave every
field (annotation, listeners, geometry, storage) untouched. -/
theorem claim10_stop_start_noop :
    (∀ s : State, s.enabled = false → stop s = s) ∧
    (∀ (s : State) (w : World), s.enabled = true → start s w = some s) := by
  constructor
  · intro s h
    unfold stop
    rw [h]
    simp
  · intro s w h
    unfold start
    rw [h]
    simp

/-- C10 witness: the constructed-disabled fixture and the
constructed-enabled fixture. -/
theorem claim10_witness :
    stop sDisabled = sDisabled ∧ start sEnabled wFix = some sEnabled :=
  ⟨claim10_stop_start_noop.1 sDisabled (by decide),
    claim10_stop_start_noop.2 sEnabled wFix (by decide)⟩

end SimpleDraggable

namespace SimpleDraggable

/-- The additive clamp establishes the bound: whatever the proposed
coordinate, the corrected coordinate lands in `[0, t]` (for `0 ≤ t`). -/
theorem clampCorrection_establishes (t p : Int) (ht : 0 ≤ t) :
    0 ≤ p + clampCorrection t p ∧ p + clampCorrection t p ≤ t := by
  unfold clampCorrection
  split_ifs with h1 h2
  · constructor <;> omega
  · rw [abs_of_neg h2]
    constructor <;> omega
  · constructor <;> omega

theorem dragHandler_thresholdX (s : State) (e : MouseEv) :
    (dragHandler s e).thresholdX = s.thresholdX := rfl

theorem dragHandler_thresholdY (s : State) (e : MouseEv) :
    (dragHandler s e).thresholdY = s.thresholdY := rfl

theorem foldl_dragHandler_thresholdX :
    ∀ (l : List MouseEv) (s : State),
      (l.foldl dragHandler s).thresholdX = s.thresholdX := by
  intro l
  induction l with
  | nil => intro s; rfl
  | cons e l ih =>
    intro s
    rw [List.foldl_cons, ih, dragHandler_thresholdX]

theorem foldl_dragHandler_thresholdY :
    ∀ (l : List MouseEv) (s : State),
      (l.foldl dragHandler s).thresholdY = s.thresholdY := by
  intro l
  induction l with
  | nil => intro s; rfl
  | cons e l ih =>
    intro s
    rw [List.foldl_cons, ih, dragHandler_thresholdY]

/-- After any single `_drag` step against positive thresholds, the
rendered top-left position (running translation plus pre-drag offset) is
within `[0, tx] × [0, ty]` — with no assumption on the incoming state's
position. -/
theorem dragHandler_inRange (s : State) (e : MouseEv) (tx ty : Int)
    (hx : s.thresholdX = some tx) (hy : s.thresholdY = some ty)
    (htx : 0 ≤ tx) (hty : 0 ≤ ty) :
    0 ≤ (dragHandler s e).translateX + (dragHandler s e).offsetLeft ∧
      (dragHandler s e).translateX + (dragHandler s e).offsetLeft ≤ tx ∧
      0 ≤ (dragHandler s e).translateY + (dragHandler s e).offsetTop ∧
      (dragHandler s e).translateY + (dragHandler s e).offsetTop ≤ ty := by
  simp only [dragHandler, getThresholds]
  rw [hx, hy]
  simp only [jsThresholdCorrection]
  have h1 := clampCorrection_establishes tx
    (s.translateX - (s.pos3 - e.clientX) + s.offsetLeft) htx
  have h2 := clampCorrection_establishes ty
    (s.translateY - (s.pos4 - e.clientY) + s.offsetTop) hty
  refine ⟨?_, ?_, ?_, ?_⟩ <;> omega

/-- The thresholds `_mousedown` derives on an accepted press. -/
theorem mousedownHandler_accepted_thresholds (s : State) (e : MouseEv)
    (rect : Rect) (vp docDims : Dims)
    (hdrag : ¬ s.elem.datasetDraggable = some "false")
    (htgt : e.targetIsDragElement = true) (hbtn : e.button = 0) :
    (mousedownHandler s e rect vp docDims).thresholdX =
        s.borderH.map (fun b =>
          (if s.position = some "fixed" then vp else docDims).x -
            (rect.width + b)) ∧
      (mousedownHandler s e rect vp docDims).thresholdY =
        s.borderV.map (fun b =>
          (if s.position = some "fixed" then vp else docDims).y -
            (rect.height + b)) := by
  unfold mousedownHandler
  rw [if_neg hdrag, if_neg (by simp [htgt]), if_neg (by simp [hbtn])]
  exact ⟨rfl, rfl⟩

/-- C1: during a drag session (an accepted `_mousedown` followed by any
sequence of `_drag` moves), every rendered frame has its top-left position
(running translation plus pre-drag offset) within `[0, maxX] × [0, maxY]`,
where `maxX`/`maxY` are the thresholds derived from the element box,
borders and container size measured at session start (the spec's
"translation" is this rendered position; the thresholds are unchanged by
moves, so they are also those current at the last move). -/
theorem claim1_drag_frames_stay_in_range
    (s : State) (e : MouseEv) (rect : Rect) (vp docDims : Dims)
    (bH bV tx ty : Int)
    (hdrag : ¬ s.elem.datasetDraggable = some "false")
    (htgt : e.targetIsDragElement = true)
    (hbtn : e.button = 0)
    (hbH : s.borderH = some bH) (hbV : s.borderV = some bV)
    (htx : tx = (if s.position = some "fixed" then vp else docDims).x -
      (rect.width + bH))
    (hty : ty = (if s.position = some "fixed" then vp else docDims).y -
      (rect.height + bV))
    (htx0 : 0 ≤ tx) (hty0 : 0 ≤ ty)
    (moves : List MouseEv) (i : Nat) (hi : i < moves.length) :
    0 ≤ ((moves.take (i + 1)).foldl dragHandler
        (mousedownHandler s e rect vp docDims)).translateX +
      ((moves.take (i + 1)).foldl dragHandler
        (mousedownHandler s e rect vp docDims)).offsetLeft ∧
    ((moves.take (i + 1)).foldl dragHandler
        (mousedownHandler s e rect vp docDims)).translateX +
      ((moves.take (i + 1)).foldl dragHandler
        (mousedownHandler s e rect vp docDims)).offsetLeft ≤ tx ∧
    0 ≤ ((moves.take (i + 1)).foldl dragHandler
        (mousedownHandler s e rect vp docDims)).translateY +
      ((moves.take (i + 1)).foldl dragHandler
        (mousedownHandler s e rect vp docDims)).offsetTop ∧
    ((moves.take (i + 1)).foldl dragHandler
        (mousedownHandler s e rect vp docDims)).translateY +
      ((moves.take (i + 1)).foldl dragHandler
        (mousedownHandler s e rect vp docDims)).offsetTop ≤ ty := by
  obtain ⟨hthx, hthy⟩ :=
    mousedownHandler_accepted_thresholds s e rect vp docDims hdrag htgt hbtn
  have hs1x : (mousedownHandler s e rect vp docDims).thresholdX = some tx := by
    rw [hthx, hbH, Option.map_some', htx]
  have hs1y : (mousedownHandler s e rect vp docDims).thresholdY = some ty := by
    rw [hthy, hbV, Option.map_some', hty]
  have hdecomp : moves.take (i + 1) = moves.take i ++ [moves[i]] := by
    rw [List.take_succ, List.getElem?_eq_getElem hi]
    rfl
  rw [hdecomp, List.foldl_append, List.foldl_cons, List.foldl_nil]
  have hpx : ((moves.take i).foldl dragHandler
      (mousedownHandler s e rect vp docDims)).thresholdX = some tx := by
    rw [foldl_dragHandler_thresholdX]
    exact hs1x
  have hpy : ((moves.take i).foldl dragHandler
      (mousedownHandler s e rect vp docDims)).thresholdY = some ty := by
    rw [foldl_dragHandler_thresholdY]
    exact hs1y
  exact dragHandler_inRange _ _ tx ty hpx hpy htx0 hty0

/-- C1 witness: the fixture session (thresholds `(90, 90)`) with one move
to `(5, 6)`. -/
theorem claim1_witness :
    0 ≤ (([(⟨5, 6, 0, true⟩ : MouseEv)].take (0 + 1)).foldl dragHandler
        (mousedownHandler sEnabled ⟨0, 0, 0, true⟩ ⟨0, 0, 10, 10⟩ ⟨100, 100⟩
          ⟨100, 100⟩)).translateX +
      (([(⟨5, 6, 0, true⟩ : MouseEv)].take (0 + 1)).foldl dragHandler
        (mousedownHandler sEnabled ⟨0, 0, 0, true⟩ ⟨0, 0, 10, 10⟩ ⟨100, 100⟩
          ⟨100, 100⟩)).offsetLeft ∧
    (([(⟨5, 6, 0, true⟩ : MouseEv)].take (0 + 1)).foldl dragHandler
        (mousedownHandler sEnabled ⟨0, 0, 0, true⟩ ⟨0, 0, 10, 10⟩ ⟨100, 100⟩
          ⟨100, 100⟩)).translateX +
      (([(⟨5, 6, 0, true⟩ : MouseEv)].take (0 + 1)).foldl dragHandler
        (mousedownHandler sEnabled ⟨0, 0, 0, true⟩ ⟨0, 0, 10, 10⟩ ⟨100, 100⟩
          ⟨100, 100⟩)).offsetLeft ≤ 90 ∧
    0 ≤ (([(⟨5, 6, 0, true⟩ : MouseEv)].take (0 + 1)).foldl dragHandler
        (mousedownHandler sEnabled ⟨0, 0, 0, true⟩ ⟨0, 0, 10, 10⟩ ⟨100, 100⟩
          ⟨100, 100⟩)).translateY +
      (([(⟨5, 6, 0, true⟩ : MouseEv)].take (0 + 1)).foldl dragHandler
        (mousedownHandler sEnabled ⟨0, 0, 0, true⟩ ⟨0, 0, 10, 10⟩ ⟨100, 100⟩
          ⟨100, 100⟩)).offsetTop ∧
    (([(⟨5, 6, 0, true⟩ : MouseEv)].take (0 + 1)).foldl dragHandler
        (mousedownHandler sEnabled ⟨0, 0, 0, true⟩ ⟨0, 0, 10, 10⟩ ⟨100, 100⟩
          ⟨100, 100⟩)).translateY +
      (([(⟨5, 6, 0, true⟩ : MouseEv)].take (0 + 1)).foldl dragHandler
        (mousedownHandler sEnabled ⟨0, 0, 0, true⟩ ⟨0, 0, 10, 10⟩ ⟨100, 100⟩
          ⟨100, 100⟩)).offsetTop ≤ 90 :=
  claim1_drag_frames_stay_in_range sEnabled ⟨0, 0, 0, true⟩ ⟨0, 0, 10, 10⟩
    ⟨100, 100⟩ ⟨100, 100⟩ 0 0 90 90 (by decide) (by decide) (by decide)
    (by decide) (by decide) (by decide) (by decide) (by decide) (by decide)
    [⟨5, 6, 0, true⟩] 0 (by decide)

end SimpleDraggable

namespace SimpleDraggable

/-- On numeric coordinates the `NaN`-aware `_getThresholds` is exactly
`getThresholds`. -/
theorem getThresholdsJs_extends (s : State) (top left : Int) :
    getThresholdsJs s (some top) (some left) = getThresholds s top left := rfl

/-- On a numeric pair payload the JS-value `_getPos` is exactly the
numeric `getPos`. -/
theorem getPosJs_extends_getPos (s : State) (d : Int × Int) (rect : Rect) :
    getPosJs s (.truthy (some d.1) (some d.2)) rect =
      ((some (getPos s (some d) rect).1.1, some (getPos s (some d) rect).1.2),
        (getPos s (some d) rect).2) := rfl

/-- C9 counterexample: the payload `"5"` is malformed as a serialized
Translation Offset, yet `JSON.parse` accepts it, so the `catch` never
fires: `_getPos` reads `(5).x`/`(5).y` (`undefined`), the arithmetic turns
them into `NaN`, and `_updatePos` records the `NaN` annotation and renders
`NaNpx NaNpx` — not the zero-offset treatment the claim states, as the
last conjunct shows against the canonical zero payload. -/
theorem claim9_counterexample :
    (updatePos sEnabled (some "5") ⟨0, 0, 10, 10⟩).elem.datasetTranslate =
        some "\x7b\"x\":NaN, \"y\":NaN\x7d" ∧
    (updatePos sEnabled (some "5") ⟨0, 0, 10, 10⟩).elem.styleTranslate =
        some "NaNpx NaNpx" ∧
    (updatePos sEnabled (some "5") ⟨0, 0, 10, 10⟩).elem.datasetTranslate ≠
      (updatePos sEnabled (some zeroTranslateJson)
        ⟨0, 0, 10, 10⟩).elem.datasetTranslate := by
  decide

/-- C9 amended: absent or empty payloads are no-op skips (restore-on-load
with nothing stored leaves the `(0,0)` annotation `_setProperties` wrote);
a payload on which `JSON.parse` throws is recovered by substituting the
zero offset exactly, and the exception never propagates (the handlers are
total).  But a payload that is valid JSON of the wrong shape is not
recovered: a JSON-falsy payload (for example `"null"`) is clamped as
`(0,0)` yet clears the inline style instead of writing the zero transform,
and a truthy wrong-shape payload (for example `"5"`) propagates `NaN` into
the recorded annotation and rendered style. -/
theorem claim9_amended_parse_recovery :
    (∀ (s : State) (rect : Rect), updatePos s none rect = s) ∧
    (∀ (s : State) (rect : Rect), updatePos s (some "") rect = s) ∧
    (∀ (s : State) (rect : Rect) (str : String), str ≠ "" →
      jsonParseJs str = none →
      updatePos s (some str) rect = updatePos s (some zeroTranslateJson) rect) ∧
    (∀ (s : State) (w : World), storeGet s.localStorage s.id = none →
      restorePos s w = s) ∧
    (∀ (s : State) (w : World) (s' : State), setProperties s w = some s' →
      storeGet s'.localStorage s'.id = none →
      (restorePos s' w).elem.datasetTranslate = some zeroTranslateJson) ∧
    (∀ (s : State) (rect : Rect) (str : String), str ≠ "" →
      jsonParseJs str = some .falsy →
      (updatePos s (some str) rect).elem.styleTranslate = some "" ∧
      (updatePos s (some str) rect).elem.datasetTranslate =
        (updatePos s (some zeroTranslateJson) rect).elem.datasetTranslate) ∧
    (∀ (s : State) (rect : Rect) (str : String), str ≠ "" →
      jsonParseJs str = some (.truthy none none) →
      (updatePos s (some str) rect).elem.datasetTranslate =
        some "\x7b\"x\":NaN, \"y\":NaN\x7d" ∧
      (updatePos s (some str) rect).elem.styleTranslate =
        some "NaNpx NaNpx") := by
  have hzero : jsonParseJs zeroTranslateJson =
      some (.truthy (some 0) (some 0)) := by decide
  have hzne : ¬ (zeroTranslateJson = "") := by decide
  refine ⟨?_, ?_, ?_, ?_, ?_, ?_, ?_⟩
  · intro s rect
    rfl
  · intro s rect
    simp [updatePos]
  · intro s rect str hstr hp
    simp only [updatePos]
    rw [if_neg hstr, if_neg hzne, hp, hzero]
    rfl
  · intro s w hget
    simp only [restorePos]
    rw [hget]
    rfl
  · intro s w s' hsp hget
    simp only [setProperties] at hsp
    split at hsp
    · exact absurd hsp (by simp)
    · rw [Option.some_inj] at hsp
      subst hsp
      simp only [restorePos]
      rw [hget]
      rfl
  · intro s rect str hstr hp
    simp only [updatePos]
    rw [if_neg hstr, if_neg hzne, hp, hzero]
    exact ⟨rfl, rfl⟩
  · intro s rect str hstr hp
    simp only [updatePos]
    rw [if_neg hstr, hp]
    exact ⟨rfl, rfl⟩

/-- C9 amended witness: a `SyntaxError` payload behaves like the zero
payload, restore with an empty store is a no-op, `"null"` clears the
style while recording the zero-payload annotation, and `"5"` records
`NaN`. -/
theorem claim9_amended_witness :
    updatePos sEnabled (some "garbage") ⟨0, 0, 10, 10⟩ =
      updatePos sEnabled (some zeroTranslateJson) ⟨0, 0, 10, 10⟩ ∧
    restorePos sDisabled wFix = sDisabled ∧
    ((updatePos sEnabled (some "null") ⟨0, 0, 10, 10⟩).elem.styleTranslate =
        some "" ∧
      (updatePos sEnabled (some "null") ⟨0, 0, 10, 10⟩).elem.datasetTranslate =
        (updatePos sEnabled (some zeroTranslateJson)
          ⟨0, 0, 10, 10⟩).elem.datasetTranslate) ∧
    ((updatePos sEnabled (some "5") ⟨0, 0, 10, 10⟩).elem.datasetTranslate =
        some "\x7b\"x\":NaN, \"y\":NaN\x7d" ∧
      (updatePos sEnabled (some "5") ⟨0, 0, 10, 10⟩).elem.styleTranslate =
        some "NaNpx NaNpx") :=
  ⟨claim9_amended_parse_recovery.2.2.1 sEnabled ⟨0, 0, 10, 10⟩ "garbage"
      (by decide) (by decide),
    claim9_amended_parse_recovery.2.2.2.1 sDisabled wFix (by decide),
    claim9_amended_parse_recovery.2.2.2.2.2.1 sEnabled ⟨0, 0, 10, 10⟩ "null"
      (by decide) (by decide),
    claim9_amended_parse_recovery.2.2.2.2.2.2 sEnabled ⟨0, 0, 10, 10⟩ "5"
      (by decide) (by decide)⟩

theorem getPos_localStorage (s : State) (data : Option (Int × Int)) (rect : Rect) :
    ((getPos s data rect).2).localStorage = s.localStorage := rfl

theorem updatePos_localStorage (s : State) (st : Option String) (rect : Rect) :
    (updatePos s st rect).localStorage = s.localStorage := by
  cases st with
  | none => rfl
  | some str =>
    simp only [updatePos]
    split
    · rfl
    · rfl

theorem restorePos_localStorage (s : State) (w : World) :
    (restorePos s w).localStorage = s.localStorage := by
  simp only [restorePos]
  exact updatePos_localStorage s _ w.rect

theorem onStorage_localStorage (s : State) (k : String) (v : Option String)
    (rect : Rect) : (onStorage s k v rect).localStorage = s.localStorage := by
  unfold onStorage
  split_ifs with h1 h2
  · rfl
  · exact updatePos_localStorage s v rect
  · rfl

theorem mousedownHandler_localStorage (s : State) (e : MouseEv) (rect : Rect)
    (vp docDims : Dims) :
    (mousedownHandler s e rect vp docDims).localStorage = s.localStorage := by
  unfold mousedownHandler
  split_ifs <;> rfl

theorem stopDragHandler_localStorage_of_store_false (s : State)
    (h : s.store = false) :
    (stopDragHandler s).localStorage = s.localStorage := by
  simp [stopDragHandler, h]

theorem stop_localStorage (s : State) : (stop s).localStorage = s.localStorage := by
  unfold stop
  split_ifs <;> rfl

/-- C7: with persistence disabled (`store = false`), no operation on a
constructed instance ever writes a binding to the store (the store is left
unchanged or has the instance's own key removed), and the setup routine
`_setProperties` removes any pre-existing entry for the identifier. -/
theorem claim7_store_false_never_writes :
    (∀ (s : State) (o : Op), s.store = false →
      (runOp s o).localStorage = s.localStorage ∨
        (runOp s o).localStorage = storeRemove s.localStorage s.id) ∧
    (∀ (s : State) (w : World) (s' : State), s.store = false →
      setProperties s w = some s' →
      s'.localStorage = storeRemove s.localStorage s.id) := by
  have hsetp : ∀ (s : State) (w : World) (s' : State), s.store = false →
      setProperties s w = some s' →
      s'.localStorage = storeRemove s.localStorage s.id := by
    intro s w s' h hsp
    simp only [setProperties, h] at hsp
    split at hsp
    · exact absurd hsp (by simp)
    · rw [Option.some_inj] at hsp
      subst hsp
      simp
  refine ⟨?_, hsetp⟩
  intro s o h
  cases o with
  | ev ev =>
    cases ev with
    | mousedown e rect vp docDims =>
      left
      simp only [runOp, deliver]
      split
      · exact mousedownHandler_localStorage s e rect vp docDims
      · rfl
    | mousemove e =>
      left
      simp only [runOp, deliver]
      split <;> rfl
    | mouseup =>
      left
      simp only [runOp, deliver]
      split
      · exact stopDragHandler_localStorage_of_store_false s h
      · rfl
    | storage k v rect =>
      left
      simp only [runOp, deliver]
      split
      · exact onStorage_localStorage s k v rect
      · rfl
  | stopOp =>
    left
    exact stop_localStorage s
  | startOp w =>
    simp only [runOp, start]
    split
    · left
      rfl
    · cases hsp2 : setProperties s w with
      | none =>
        left
        simp [hsp2]
      | some s1 =>
        right
        simp only [hsp2]
        show (restorePos s1 w).localStorage = storeRemove s.localStorage s.id
        rw [restorePos_localStorage s1 w]
        exact hsetp s w s1 h hsp2
  | removeListenersOp =>
    left
    rfl

/-- C7 witness: a storage notification on the store-disabled fixture, and
the setup removal on the same fixture. -/
theorem claim7_witness :
    ((runOp sDisabled
          (Op.ev (.storage "box" (some "\x7b\"x\":1, \"y\":2\x7d")
            ⟨0, 0, 10, 10⟩))).localStorage = sDisabled.localStorage ∨
      (runOp sDisabled
          (Op.ev (.storage "box" (some "\x7b\"x\":1, \"y\":2\x7d")
            ⟨0, 0, 10, 10⟩))).localStorage =
        storeRemove sDisabled.localStorage sDisabled.id) ∧
    ((setProperties sDisabled wFix).getD default).localStorage =
      storeRemove sDisabled.localStorage sDisabled.id :=
  ⟨claim7_store_false_never_writes.1 sDisabled
      (Op.ev (.storage "box" (some "\x7b\"x\":1, \"y\":2\x7d") ⟨0, 0, 10, 10⟩))
      (by decide),
    claim7_store_false_never_writes.2 sDisabled wFix _ (by decide) rfl⟩

/-- C5 counterexample: an instance constructed with `enabled = false`
still has the storage listener attached (the constructor adds it outside
the `enabled` guard) and `_onStorage` never consults the enabled flag, so
a change notification for its key rewrites both the recorded offset
annotation and the rendered transform — refuting the claim at this
concrete input. -/
theorem claim5_counterexample :
    sDisabled.enabled = false ∧
    (deliver sDisabled
        (.storage "box" (some "\x7b\"x\":5, \"y\":6\x7d")
          ⟨5, 6, 10, 10⟩)).elem.datasetTranslate ≠
      sDisabled.elem.datasetTranslate ∧
    (deliver sDisabled
        (.storage "box" (some "\x7b\"x\":5, \"y\":6\x7d")
          ⟨5, 6, 10, 10⟩)).elem.styleTranslate ≠
      sDisabled.elem.styleTranslate := by
  decide

/-- C5 amended: an instance disabled through `stop()` never processes
sync notifications — `stop` detaches the storage listener, so any
subsequent notification leaves the state (recorded offset and rendered
transform included) entirely unchanged.  An instance constructed with
`enabled = false` does process them (see the counterexample). -/
theorem claim5_amended_stop_detaches_sync (s : State) (k : String)
    (v : Option String) (rect : Rect) (h : s.enabled = true) :
    (stop s).storageAttached = false ∧
      deliver (stop s) (.storage k v rect) = stop s := by
  have hs : (stop s).storageAttached = false := by
    unfold stop
    rw [h]
    simp [removeListeners]
  exact ⟨hs, by simp [deliver, hs]⟩

/-- C5 amended witness: the enabled fixture, stopped, ignores a
notification for its own key. -/
theorem claim5_amended_witness :
    (stop sEnabled).storageAttached = false ∧
      deliver (stop sEnabled)
        (.storage "box" (some "\x7b\"x\":9, \"y\":9\x7d") ⟨0, 0, 10, 10⟩) =
      stop sEnabled :=
  claim5_amended_stop_detaches_sync sEnabled "box"
    (some "\x7b\"x\":9, \"y\":9\x7d") ⟨0, 0, 10, 10⟩ (by decide)

/-- C6 counterexample: a real session (press, move to `(5,6)`, release)
followed by `stop()` on the still-enabled instance leaves
`style.translate` at `5px 6px`: `stop` resets only the `dataset.translate`
annotation and never touches the rendered transform, refuting the claim's
"rendered visual transform is the zero offset" at this concrete input. -/
theorem claim6_counterexample :
    (List.foldl runOp sEnabled
        [Op.ev (.mousedown ⟨0, 0, 0, true⟩ ⟨0, 0, 10, 10⟩ ⟨100, 100⟩ ⟨100, 100⟩),
         Op.ev (.mousemove ⟨5, 6, 0, true⟩),
         Op.ev .mouseup]).enabled = true ∧
    (List.foldl runOp sEnabled
        [Op.ev (.mousedown ⟨0, 0, 0, true⟩ ⟨0, 0, 10, 10⟩ ⟨100, 100⟩ ⟨100, 100⟩),
         Op.ev (.mousemove ⟨5, 6, 0, true⟩),
         Op.ev .mouseup,
         Op.stopOp]).elem.styleTranslate = some "5px 6px" ∧
    ¬ renderedZeroOffset (List.foldl runOp sEnabled
        [Op.ev (.mousedown ⟨0, 0, 0, true⟩ ⟨0, 0, 10, 10⟩ ⟨100, 100⟩ ⟨100, 100⟩),
         Op.ev (.mousemove ⟨5, 6, 0, true⟩),
         Op.ev .mouseup,
         Op.stopOp]) := by
  decide

/-- C6 amended: `stop()` on an enabled instance detaches all listeners,
resets the recorded offset annotation to zero and leaves both the rendered
visual transform and the persistence store entry unchanged. -/
theorem claim6_amended_stop_effects (s : State) (h : s.enabled = true) :
    (stop s).elem.styleTranslate = s.elem.styleTranslate ∧
    (stop s).elem.datasetTranslate = some zeroTranslateJson ∧
    (stop s).localStorage = s.localStorage ∧
    (stop s).mousedownAttached = false ∧
    (stop s).storageAttached = false ∧
    (stop s).mousemoveAttached = false ∧
    (stop s).mouseupAttached = false ∧
    (stop s).enabled = false := by
  unfold stop
  rw [h]
  simp [removeListeners]

/-- C6 amended witness: the enabled fixture. -/
theorem claim6_amended_witness :
    (stop sEnabled).elem.styleTranslate = sEnabled.elem.styleTranslate ∧
    (stop sEnabled).elem.datasetTranslate = some zeroTranslateJson ∧
    (stop sEnabled).localStorage = sEnabled.localStorage ∧
    (stop sEnabled).mousedownAttached = false ∧
    (stop sEnabled).storageAttached = false ∧
    (stop sEnabled).mousemoveAttached = false ∧
    (stop sEnabled).mouseupAttached = false ∧
    (stop sEnabled).enabled = false :=
  claim6_amended_stop_effects sEnabled (by decide)

end SimpleDraggable
